import Mathlib

/-!
Verification development for the neural simulation engine of the
Neuromorphic-ai repository.  The engine consists of `BiologicalNeuron`
(AdEx membrane dynamics, STDP, delayed synaptic delivery queues) and
`BiologicalNeuronProcessor` (regions, synapses, oscillations,
neuromodulators, the per-step plasticity pass).

JavaScript numbers are modelled as real numbers.  The one place where
float-specific behaviour matters (division by a zero interval in the
firing-rate computation, which yields `Infinity` in JavaScript) is
modelled explicitly with an `Option ℝ` result, `none` standing for a
non-finite value.  The initial `lastSpikeTime = -Infinity` is modelled
as `Option ℝ` with `none` meaning "never spiked"; every comparison the
source performs against `lastSpikeTime` is false (or yields the
fall-through branch) at `-Infinity`, which is exactly the behaviour of
the `none` branch in the definitions below.
-/

namespace Neuromorphic

/-- AdEx / STDP parameter record of a neuron (`NeuronParameters` in
`BiologicalNeuron.ts`).  The optional Hodgkin–Huxley channel
conductances are omitted: none of the verified operations read them. -/
structure NeuronParameters where
  C : ℝ
  gL : ℝ
  EL : ℝ
  VT : ℝ
  deltaT : ℝ
  a : ℝ
  b : ℝ
  tau_w : ℝ
  Vr : ℝ
  Vpeak : ℝ
  tau_plus : ℝ
  tau_minus : ℝ
  A_plus : ℝ
  A_minus : ℝ

/-- The `RegularSpiking` preset from `NeuronPresets`. -/
noncomputable def NeuronPresets.RegularSpiking : NeuronParameters :=
  { C := 200, gL := 10, EL := -70, VT := -50, deltaT := 2,
    a := 2, b := 5, tau_w := 30, Vr := -58, Vpeak := 20,
    tau_plus := 20, tau_minus := 20, A_plus := 0.01, A_minus := 0.012 }

/-- The `FastSpiking` preset from `NeuronPresets`. -/
noncomputable def NeuronPresets.FastSpiking : NeuronParameters :=
  { C := 100, gL := 10, EL := -65, VT := -50, deltaT := 0.5,
    a := 10, b := 0.2, tau_w := 10, Vr := -65, Vpeak := 20,
    tau_plus := 20, tau_minus := 20, A_plus := 0.01, A_minus := 0.012 }

/-- The `Bursting` preset from `NeuronPresets`. -/
noncomputable def NeuronPresets.Bursting : NeuronParameters :=
  { C := 200, gL := 10, EL := -60, VT := -50, deltaT := 2,
    a := 2, b := 10, tau_w := 120, Vr := -46, Vpeak := 20,
    tau_plus := 20, tau_minus := 20, A_plus := 0.01, A_minus := 0.012 }

/-- The `Adapting` preset from `NeuronPresets`. -/
noncomputable def NeuronPresets.Adapting : NeuronParameters :=
  { C := 200, gL := 12, EL := -70, VT := -50, deltaT := 2,
    a := 20, b := 5, tau_w := 100, Vr := -55, Vpeak := 20,
    tau_plus := 20, tau_minus := 20, A_plus := 0.01, A_minus := 0.012 }

/-- One queued synaptic delivery: `{time, weight}` entries of the
`excitatoryInputs` / `inhibitoryInputs` arrays. -/
structure PendingInput where
  time : ℝ
  weight : ℝ

/-- Mutable continuous state of a `BiologicalNeuron`: membrane potential
`V`, adaptation `w`, STDP spike trace, accumulated synaptic current,
last spike time (`none` models the initial `-Infinity`), the neuron's
simulation clock, the Hodgkin–Huxley gating variables `n`, `m`, `h`,
and the two pending-delivery queues. -/
structure NeuronState where
  V : ℝ
  w : ℝ
  spikeTrace : ℝ
  synapticCurrent : ℝ
  lastSpikeTime : Option ℝ
  currentTime : ℝ
  n : ℝ
  m : ℝ
  h : ℝ
  excitatoryInputs : List PendingInput
  inhibitoryInputs : List PendingInput

/-- State of a freshly constructed neuron (`initializeByType` sets
`V = EL`, `w = 0`; the field initializers set everything else). -/
noncomputable def initialNeuronState (p : NeuronParameters) : NeuronState :=
  { V := p.EL, w := 0, spikeTrace := 0, synapticCurrent := 0,
    lastSpikeTime := none, currentTime := 0,
    n := 0, m := 0, h := 1,
    excitatoryInputs := [], inhibitoryInputs := [] }

namespace BiologicalNeuron

/-- `BiologicalNeuron.updateAdEx(dt, I_ext)`.  On entry, if `V` exceeds
`Vpeak` the neuron is reset (`V := Vr`, `w += b`, spike time recorded,
trace set to 1) and the spike reported; the method then always performs
one forward-Euler step of the AdEx equations from the (possibly reset)
state, decays the spike trace by `exp(-dt/tau_plus)` and the synaptic
current by `exp(-dt/5)`.  Returns `(spiked, new state)`. -/
noncomputable def updateAdEx (p : NeuronParameters) (s : NeuronState)
    (dt Iext : ℝ) : Bool × NeuronState :=
  let spiked : Bool := decide (s.V > p.Vpeak)
  let V0 : ℝ := if s.V > p.Vpeak then p.Vr else s.V
  let w0 : ℝ := if s.V > p.Vpeak then s.w + p.b else s.w
  let lastT : Option ℝ := if s.V > p.Vpeak then some s.currentTime else s.lastSpikeTime
  let trace0 : ℝ := if s.V > p.Vpeak then 1 else s.spikeTrace
  let dV : ℝ := (-p.gL * (V0 - p.EL) +
      p.gL * p.deltaT * Real.exp ((V0 - p.VT) / p.deltaT) -
      w0 + Iext + s.synapticCurrent) / p.C
  let dw : ℝ := (p.a * (V0 - p.EL) - w0) / p.tau_w
  (spiked,
   { s with
     V := V0 + dV * dt
     w := w0 + dw * dt
     lastSpikeTime := lastT
     spikeTrace := trace0 * Real.exp (-dt / p.tau_plus)
     synapticCurrent := s.synapticCurrent * Real.exp (-dt / 5) })

end BiologicalNeuron

/-- Synapse sign tag (`type: 'excitatory' | 'inhibitory'`). -/
inductive SynapseType
  | excitatory
  | inhibitory
deriving DecidableEq

/-- The `Synapse` record of `BiologicalNeuronProcessor.ts`: endpoints,
signed weight, transmission delay, sign tag, plasticity rate and the two
STDP eligibility traces. -/
structure Synapse where
  preId : String
  postId : String
  weight : ℝ
  delay : ℝ
  type : SynapseType
  plasticity : ℝ
  preTrace : ℝ
  postTrace : ℝ

namespace BiologicalNeuron

/-- `BiologicalNeuron.applySTDP(presynapticSpike, postsynapticSpike,
synapse)`: potentiate by `A_plus * postTrace` on a presynaptic spike
with positive post trace, depress by `A_minus * preTrace` on a
postsynaptic spike with positive pre trace; set a trace to 1 on the
corresponding spike and otherwise multiply it by `exp(-1/tau)` (the
exponent is a fixed `-1`, not `-dt`: the caller passes `dt` as a fourth
argument but the function has only three parameters, so it is ignored);
finally clamp the weight to `[0, 2]`. -/
noncomputable def applySTDP (p : NeuronParameters)
    (presynapticSpike postsynapticSpike : Bool) (syn : Synapse) : Synapse :=
  let w1 : ℝ :=
    if presynapticSpike = true ∧ syn.postTrace > 0 then
      syn.weight + p.A_plus * syn.postTrace
    else syn.weight
  let w2 : ℝ :=
    if postsynapticSpike = true ∧ syn.preTrace > 0 then
      w1 - p.A_minus * syn.preTrace
    else w1
  let preT : ℝ :=
    if presynapticSpike = true then 1
    else syn.preTrace * Real.exp (-1 / p.tau_plus)
  let postT : ℝ :=
    if postsynapticSpike = true then 1
    else syn.postTrace * Real.exp (-1 / p.tau_minus)
  { syn with
    weight := max 0 (min w2 2)
    preTrace := preT
    postTrace := postT }

/-- `BiologicalNeuron.receiveInput(weight, delay, isExcitatory)`:
append a pending delivery with `arrivalTime = currentTime + delay` to
the excitatory or inhibitory queue. -/
noncomputable def receiveInput (s : NeuronState) (weight delay : ℝ)
    (isExcitatory : Bool) : NeuronState :=
  let arrivalTime : ℝ := s.currentTime + delay
  if isExcitatory then
    { s with excitatoryInputs :=
        s.excitatoryInputs ++ [{ time := arrivalTime, weight := weight }] }
  else
    { s with inhibitoryInputs :=
        s.inhibitoryInputs ++ [{ time := arrivalTime, weight := weight }] }

/-- One filter-with-accumulation pass over a pending-input queue (the
body of the `filter` callbacks in `processSynapticInputs`): returns the
total weight of the deliveries due at `currentTime` together with the
queue of the remaining (future) deliveries, in order. -/
noncomputable def deliverDue (currentTime : ℝ) :
    List PendingInput → ℝ × List PendingInput
  | [] => (0, [])
  | i :: rest =>
    let r := deliverDue currentTime rest
    if i.time ≤ currentTime then (i.weight + r.1, r.2)
    else (r.1, i :: r.2)

/-- `BiologicalNeuron.processSynapticInputs(currentTime)`: sync the
neuron clock, add every due excitatory amplitude to and subtract every
due inhibitory amplitude from `synapticCurrent`, and keep only the
future deliveries in each queue. -/
noncomputable def processSynapticInputs (s : NeuronState)
    (currentTime : ℝ) : NeuronState :=
  let exc := deliverDue currentTime s.excitatoryInputs
  let inh := deliverDue currentTime s.inhibitoryInputs
  { s with
    currentTime := currentTime
    synapticCurrent := s.synapticCurrent + exc.1 - inh.1
    excitatoryInputs := exc.2
    inhibitoryInputs := inh.2 }

/-- `BiologicalNeuron.calculateFiringRate()`: if less than 1000 ms have
passed since the last spike, return `1000 / timeSinceSpike`, else 0.
JavaScript division of 1000 by a zero interval yields `Infinity`; a
non-finite result is modelled as `none`.  A `lastSpikeTime` of
`-Infinity` (modelled `none`) makes the guard false, returning 0. -/
noncomputable def calculateFiringRate (currentTime : ℝ)
    (lastSpikeTime : Option ℝ) : Option ℝ :=
  match lastSpikeTime with
  | none => some 0
  | some t =>
    let timeSinceSpike : ℝ := currentTime - t
    if timeSinceSpike < 1000 then
      if timeSinceSpike = 0 then none else some (1000 / timeSinceSpike)
    else some 0

/-- `BiologicalNeuron.reset()`: restore `V = EL`, `w = 0`, clear the
spike trace, the synaptic current and both queues, and zero the neuron
clock.  `lastSpikeTime` and the gating variables are not assigned. -/
noncomputable def reset (p : NeuronParameters) (s : NeuronState) : NeuronState :=
  { s with
    V := p.EL
    w := 0
    spikeTrace := 0
    synapticCurrent := 0
    excitatoryInputs := []
    inhibitoryInputs := []
    currentTime := 0 }

end BiologicalNeuron

/-- A recorded spike (`Spike` of `types/neuromorphic`): emitting neuron,
timestamp, strength and propagation path. -/
structure Spike where
  neuronId : String
  timestamp : ℝ
  strength : ℝ
  propagationPath : List String

/-- A sampled activity record (`NeuronActivity`): neuron, timestamp,
membrane potential and whether the neuron fired on that step. -/
structure NeuronActivity where
  neuronId : String
  timestamp : ℝ
  potential : ℝ
  fired : Bool

/-- The four neuromodulator scalars of `BiologicalNeuronProcessor`. -/
structure Neuromodulators where
  dopamine : ℝ
  serotonin : ℝ
  acetylcholine : ℝ
  norepinephrine : ℝ

/-- All four neuromodulator levels lie in `[0, 1]`. -/
def Neuromodulators.InRange (nm : Neuromodulators) : Prop :=
  nm.dopamine ∈ Set.Icc (0 : ℝ) 1 ∧ nm.serotonin ∈ Set.Icc (0 : ℝ) 1 ∧
  nm.acetylcholine ∈ Set.Icc (0 : ℝ) 1 ∧ nm.norepinephrine ∈ Set.Icc (0 : ℝ) 1

/-- The constructor baseline: every level starts at 0.5. -/
noncomputable def initialNeuromodulators : Neuromodulators :=
  { dopamine := 0.5, serotonin := 0.5, acetylcholine := 0.5, norepinephrine := 0.5 }

namespace BiologicalNeuronProcessor

/-- The recent-spike test of the plasticity pass:
`globalTime - lastSpikeTime < 1`.  At the initial `-Infinity` spike
time (modelled `none`) the difference is `Infinity` and the test is
false. -/
def recentSpike (globalTime : ℝ) : Option ℝ → Prop
  | none => False
  | some t => globalTime - t < 1

noncomputable instance (globalTime : ℝ) (o : Option ℝ) : Decidable (recentSpike globalTime o) :=
  match o with
  | none => isFalse fun h => h
  | some t => inferInstanceAs (Decidable (globalTime - t < 1))

/-- The per-synapse body of `BiologicalNeuronProcessor.applySTDP`:
compute the two recent-spike flags from the endpoints' last spike times;
if either fired recently, run the presynaptic neuron's STDP update and
then multiply the weight by `1 + dopamine·acetylcholine·0.01`;
otherwise leave the synapse untouched. -/
noncomputable def applySTDPStep (p : NeuronParameters) (globalTime : ℝ)
    (preLast postLast : Option ℝ) (dopamine acetylcholine : ℝ)
    (syn : Synapse) : Synapse :=
  let preSpike : Bool := decide (recentSpike globalTime preLast)
  let postSpike : Bool := decide (recentSpike globalTime postLast)
  if preSpike = true ∨ postSpike = true then
    let plasticityFactor : ℝ := dopamine * acetylcholine
    let s1 := BiologicalNeuron.applySTDP p preSpike postSpike syn
    { s1 with weight := s1.weight * (1 + plasticityFactor * 0.01) }
  else syn

/-- `BiologicalNeuronProcessor.updateNeuromodulators()`: homeostatic
serotonin band on the fraction of fired activity records, multiplicative
`0.99` decay of dopamine and norepinephrine, and acetylcholine slaved to
the θ phase as `0.5 + 0.3·sin θ`. -/
noncomputable def updateNeuromodulators (activities : List NeuronActivity)
    (neuronCount : ℕ) (thetaPhase : ℝ) (nm : Neuromodulators) : Neuromodulators :=
  let totalActivity : ℕ := (activities.filter (fun a => a.fired)).length
  let activityRate : ℝ := (totalActivity : ℝ) / (neuronCount : ℝ)
  let serotonin : ℝ :=
    if activityRate > 0.3 then min 1 (nm.serotonin + 0.01)
    else if activityRate < 0.1 then max 0 (nm.serotonin - 0.01)
    else nm.serotonin
  { dopamine := nm.dopamine * 0.99
    serotonin := serotonin
    acetylcholine := 0.5 + 0.3 * Real.sin thetaPhase
    norepinephrine := nm.norepinephrine * 0.99 }

/-- `BiologicalNeuronProcessor.applyReward(reward)`: shift dopamine by
`reward`, clamped to `[0, 1]`, and strengthen every synapse whose two
eligibility traces exceed 0.5 by the factor `1 + reward·0.1`, clamping
the result to `[-2, 2]`. -/
noncomputable def applyReward (reward : ℝ) (nm : Neuromodulators)
    (synapses : List Synapse) : Neuromodulators × List Synapse :=
  ({ nm with dopamine := max 0 (min 1 (nm.dopamine + reward)) },
   synapses.map fun s =>
     if s.preTrace > 0.5 ∧ s.postTrace > 0.5 then
       { s with weight := max (-2) (min 2 (s.weight * (1 + reward * 0.1))) }
     else s)

/-- `BiologicalNeuronProcessor.setArousal(level)`: clamp into `[0,1]`. -/
noncomputable def setArousal (level : ℝ) (nm : Neuromodulators) : Neuromodulators :=
  { nm with norepinephrine := max 0 (min 1 level) }

/-- `BiologicalNeuronProcessor.setAttention(level)`: clamp into `[0,1]`. -/
noncomputable def setAttention (level : ℝ) (nm : Neuromodulators) : Neuromodulators :=
  { nm with acetylcholine := max 0 (min 1 level) }

/-- `BiologicalNeuronProcessor.handleSpike` appends the new spike record
to the `spikes` buffer (the propagation/enqueue side effects touch the
neurons, not this buffer); nothing is ever removed here. -/
def handleSpikePush (spikes : List Spike) (spike : Spike) : List Spike :=
  spikes ++ [spike]

/-- The activity-sampling push inside the step loop of `processInput`:
append one record to the `activities` buffer. -/
def recordActivityPush (activities : List NeuronActivity)
    (record : NeuronActivity) : List NeuronActivity :=
  activities ++ [record]

/-- Modelled from the spec: a history push with a fixed cap, dropping
the oldest entries once the cap is exceeded ("oldest entries are
dropped once a cap is exceeded").  No such mechanism exists in
`BiologicalNeuronProcessor`; this definition exists only to be compared
with `handleSpikePush`. -/
def cappedPush (cap : ℕ) (spikes : List Spike) (spike : Spike) : List Spike :=
  let pushed := spikes ++ [spike]
  if cap < pushed.length then pushed.drop (pushed.length - cap) else pushed

/-- The input-injection loop at the top of
`BiologicalNeuronProcessor.processInput(input)`: the `i`-th input
component is delivered to the `i`-th sensory-cortex neuron — guarded by
`i < sensoryNeurons.length` — as an immediate excitatory input of
amplitude `value · 50 · (1 + acetylcholine)`.  The index loop is
rendered as positional recursion over the two lists: components beyond
the number of sensory neurons, and neurons beyond the input length, are
left untouched. -/
noncomputable def processInputInject (acetylcholine : ℝ) :
    List ℝ → List NeuronState → List NeuronState
  | _, [] => []
  | [], neurons => neurons
  | value :: values, neuron :: neurons =>
    BiologicalNeuron.receiveInput neuron (value * 50 * (1 + acetylcholine)) 0 true ::
      processInputInject acetylcholine values neurons

end BiologicalNeuronProcessor

/-- The processor-level mutable state used by `reset()`: all neurons
(each with its parameter record), the synapses, the two history
buffers, the global clock, the four neuromodulators and the three
oscillator phases. -/
structure ProcessorState where
  neurons : List (NeuronParameters × NeuronState)
  synapses : List Synapse
  spikes : List Spike
  activities : List NeuronActivity
  globalTime : ℝ
  dopamine : ℝ
  serotonin : ℝ
  acetylcholine : ℝ
  norepinephrine : ℝ
  thetaPhase : ℝ
  gammaPhase : ℝ
  alphaPhase : ℝ

/-- `BiologicalNeuronProcessor.reset()`: reset every neuron via
`BiologicalNeuron.reset`, clear the spike and activity buffers, zero the
global clock and restore the four neuromodulators to 0.5.  The synapses
and the three oscillator phases are not assigned. -/
noncomputable def BiologicalNeuronProcessor.reset (st : ProcessorState) : ProcessorState :=
  { st with
    neurons := st.neurons.map fun pn => (pn.1, BiologicalNeuron.reset pn.1 pn.2)
    spikes := []
    activities := []
    globalTime := 0
    dopamine := 0.5
    serotonin := 0.5
    acetylcholine := 0.5
    norepinephrine := 0.5 }

/-! ## Theorems -/

/-- Characterization of one filter-with-accumulation pass: the due
amplitude total and the kept queue of `deliverDue`. -/
theorem deliverDue_spec (t : ℝ) (l : List PendingInput) :
    (BiologicalNeuron.deliverDue t l).1 =
      ((l.filter fun i => decide (i.time ≤ t)).map PendingInput.weight).sum ∧
    (BiologicalNeuron.deliverDue t l).2 =
      l.filter fun i => decide (¬ i.time ≤ t) := by
  induction l with
  | nil => simp [BiologicalNeuron.deliverDue]
  | cons i rest ih =>
    by_cases h : i.time ≤ t
    · simp [BiologicalNeuron.deliverDue, h, ih.1, ih.2, List.filter_cons]
    · simp [BiologicalNeuron.deliverDue, h, ih.1, ih.2, List.filter_cons,
        not_le.mp h]

/-- C7: processing pending deliveries at time `t` removes every queued
delivery with arrival time ≤ `t`, adding its amplitude to (excitatory)
or subtracting it from (inhibitory) the synaptic current accumulator,
while every delivery with arrival time > `t` remains queued, in order
and unchanged. -/
theorem processSynapticInputs_spec (s : NeuronState) (t : ℝ) :
    (BiologicalNeuron.processSynapticInputs s t).synapticCurrent =
      s.synapticCurrent +
        ((s.excitatoryInputs.filter fun i => decide (i.time ≤ t)).map
          PendingInput.weight).sum -
        ((s.inhibitoryInputs.filter fun i => decide (i.time ≤ t)).map
          PendingInput.weight).sum ∧
    (BiologicalNeuron.processSynapticInputs s t).excitatoryInputs =
      s.excitatoryInputs.filter (fun i => decide (¬ i.time ≤ t)) ∧
    (BiologicalNeuron.processSynapticInputs s t).inhibitoryInputs =
      s.inhibitoryInputs.filter (fun i => decide (¬ i.time ≤ t)) ∧
    (BiologicalNeuron.processSynapticInputs s t).currentTime = t ∧
    (BiologicalNeuron.processSynapticInputs s t).V = s.V ∧
    (BiologicalNeuron.processSynapticInputs s t).w = s.w := by
  refine ⟨?_, ?_, ?_, rfl, rfl, rfl⟩
  · simp [BiologicalNeuron.processSynapticInputs,
      (deliverDue_spec t s.excitatoryInputs).1,
      (deliverDue_spec t s.inhibitoryInputs).1]
  · simpa [BiologicalNeuron.processSynapticInputs] using
      (deliverDue_spec t s.excitatoryInputs).2
  · simpa [BiologicalNeuron.processSynapticInputs] using
      (deliverDue_spec t s.inhibitoryInputs).2

/-- C9: when the state is queried at a time equal to the last spike
time, the `timeSinceSpike < 1000` guard passes with a zero interval and
the firing rate is computed as `1000 / 0`, a non-finite value
(JavaScript `Infinity`, modelled `none`) rather than a real rate. -/
theorem firingRate_at_spike_time_nonfinite (t : ℝ) :
    BiologicalNeuron.calculateFiringRate t (some t) = none := by
  simp [BiologicalNeuron.calculateFiringRate]

/-- C10: `processInput` injects the `i`-th input component into the
`i`-th sensory neuron only for `i < min(input length, sensory count)`;
components past the sensory count are silently ignored, neurons past
the input length are untouched, and each injected component is scaled
by `50·(1 + acetylcholine)` and enqueued as an immediate (delay-0)
excitatory input. -/
theorem processInput_inject_spec (ach : ℝ) (input : List ℝ)
    (sensory : List NeuronState) :
    (BiologicalNeuronProcessor.processInputInject ach input sensory).length =
      sensory.length ∧
    (∀ i : ℕ, i < input.length →
      (BiologicalNeuronProcessor.processInputInject ach input sensory).get? i =
        (sensory.get? i).map fun nrn =>
          BiologicalNeuron.receiveInput nrn (input.getD i 0 * 50 * (1 + ach)) 0 true) ∧
    (∀ i : ℕ, input.length ≤ i →
      (BiologicalNeuronProcessor.processInputInject ach input sensory).get? i =
        sensory.get? i) ∧
    (∀ (nrn : NeuronState) (amp : ℝ),
      (BiologicalNeuron.receiveInput nrn amp 0 true).excitatoryInputs =
        nrn.excitatoryInputs ++ [{ time := nrn.currentTime + 0, weight := amp }] ∧
      (BiologicalNeuron.receiveInput nrn amp 0 true).inhibitoryInputs =
        nrn.inhibitoryInputs) := by
  refine ⟨?_, ?_, ?_, fun nrn amp => ⟨rfl, rfl⟩⟩
  · induction input generalizing sensory with
    | nil => cases sensory <;> simp [BiologicalNeuronProcessor.processInputInject]
    | cons v vs ih =>
      cases sensory with
      | nil => simp [BiologicalNeuronProcessor.processInputInject]
      | cons nrn ns => simp [BiologicalNeuronProcessor.processInputInject, ih]
  · induction input generalizing sensory with
    | nil => intro i hi; simp at hi
    | cons v vs ih =>
      intro i hi
      cases sensory with
      | nil => simp [BiologicalNeuronProcessor.processInputInject]
      | cons nrn ns =>
        cases i with
        | zero => simp [BiologicalNeuronProcessor.processInputInject]
        | succ j =>
          simp only [BiologicalNeuronProcessor.processInputInject,
            List.get?_cons_succ, List.getD_cons_succ]
          exact ih ns j (by simpa using hi)
  · induction input generalizing sensory with
    | nil =>
      intro i hi
      cases sensory <;> simp [BiologicalNeuronProcessor.processInputInject]
    | cons v vs ih =>
      intro i hi
      cases sensory with
      | nil => simp [BiologicalNeuronProcessor.processInputInject]
      | cons nrn ns =>
        cases i with
        | zero => simp at hi
        | succ j =>
          simp only [BiologicalNeuronProcessor.processInputInject,
            List.get?_cons_succ]
          exact ih ns j (by simpa using hi)

/-- Witness for C10 at a concrete input: one input component, one
sensory neuron. -/
theorem processInput_inject_spec_witness :
    (0 : ℕ) < [(1 : ℝ)].length ∧
    (BiologicalNeuronProcessor.processInputInject 0.5 [(1 : ℝ)]
        [initialNeuronState NeuronPresets.RegularSpiking]).get? 0 =
      some (BiologicalNeuron.receiveInput
        (initialNeuronState NeuronPresets.RegularSpiking)
        ([(1 : ℝ)].getD 0 0 * 50 * (1 + 0.5)) 0 true) := by
  refine ⟨by norm_num, ?_⟩
  have h := (processInput_inject_spec 0.5 [(1 : ℝ)]
    [initialNeuronState NeuronPresets.RegularSpiking]).2.1 0 (by norm_num)
  simpa using h

/-- C8: starting from the 0.5 baseline, every operation that mutates
the four neuromodulator levels — the per-step update (homeostatic
serotonin band, multiplicative dopamine/norepinephrine decay,
θ-tracking acetylcholine), `applyReward`, `setArousal` and
`setAttention` — keeps all four levels in `[0, 1]`. -/
theorem neuromodulators_in_range (nm : Neuromodulators) (h : nm.InRange)
    (activities : List NeuronActivity) (neuronCount : ℕ)
    (thetaPhase reward level : ℝ) (synapses : List Synapse) :
    initialNeuromodulators.InRange ∧
    (BiologicalNeuronProcessor.updateNeuromodulators activities neuronCount
      thetaPhase nm).InRange ∧
    (BiologicalNeuronProcessor.applyReward reward nm synapses).1.InRange ∧
    (BiologicalNeuronProcessor.setArousal level nm).InRange ∧
    (BiologicalNeuronProcessor.setAttention level nm).InRange := by
  obtain ⟨⟨hd0, hd1⟩, ⟨hs0, hs1⟩, ⟨ha0, ha1⟩, ⟨hn0, hn1⟩⟩ := h
  have hsin1 : Real.sin thetaPhase ≤ 1 := Real.sin_le_one thetaPhase
  have hsin0 : -1 ≤ Real.sin thetaPhase := Real.neg_one_le_sin thetaPhase
  refine ⟨?_, ?_, ?_, ?_, ?_⟩
  · refine ⟨⟨?_, ?_⟩, ⟨?_, ?_⟩, ⟨?_, ?_⟩, ⟨?_, ?_⟩⟩ <;>
      norm_num [initialNeuromodulators]
  · refine ⟨⟨?_, ?_⟩, ⟨?_, ?_⟩, ⟨?_, ?_⟩, ⟨?_, ?_⟩⟩ <;>
      simp only [BiologicalNeuronProcessor.updateNeuromodulators]
    · nlinarith
    · nlinarith
    · split_ifs
      · exact le_min (by norm_num) (by nlinarith)
      · exact le_max_left 0 _
      · exact hs0
    · split_ifs
      · exact min_le_left 1 _
      · exact max_le (by norm_num) (by nlinarith)
      · exact hs1
    · nlinarith
    · nlinarith
    · nlinarith
    · nlinarith
  · refine ⟨⟨?_, ?_⟩, ⟨hs0, hs1⟩, ⟨ha0, ha1⟩, ⟨hn0, hn1⟩⟩ <;>
      simp only [BiologicalNeuronProcessor.applyReward]
    · exact le_max_left 0 _
    · exact max_le (by norm_num) (min_le_left 1 _)
  · exact ⟨⟨hd0, hd1⟩, ⟨hs0, hs1⟩, ⟨ha0, ha1⟩,
      le_max_left 0 _, max_le (by norm_num) (min_le_left 1 _)⟩
  · exact ⟨⟨hd0, hd1⟩, ⟨hs0, hs1⟩,
      ⟨le_max_left 0 _, max_le (by norm_num) (min_le_left 1 _)⟩, ⟨hn0, hn1⟩⟩

/-- Witness for C8 at the constructor baseline with concrete control
inputs. -/
theorem neuromodulators_in_range_witness :
    initialNeuromodulators.InRange ∧
    (BiologicalNeuronProcessor.updateNeuromodulators [] 195 0
      initialNeuromodulators).InRange ∧
    (BiologicalNeuronProcessor.applyReward 10 initialNeuromodulators []).1.InRange ∧
    (BiologicalNeuronProcessor.setArousal 0.9 initialNeuromodulators).InRange ∧
    (BiologicalNeuronProcessor.setAttention 0.9 initialNeuromodulators).InRange := by
  have h0 : initialNeuromodulators.InRange := by
    refine ⟨⟨?_, ?_⟩, ⟨?_, ?_⟩, ⟨?_, ?_⟩, ⟨?_, ?_⟩⟩ <;>
      norm_num [initialNeuromodulators]
  exact neuromodulators_in_range initialNeuromodulators h0 [] 195 0 10 0.9 []

/-- C3 counterexample: `reset()` leaves the θ oscillator phase and a
neuron's last spike time exactly as they were, whereas the initial
baseline is phase 0 and no recorded spike (`none`): the claim that
reset reinitializes all three oscillator phases and the spike time is
false at this concrete state. -/
theorem reset_counterexample :
    let st : ProcessorState :=
      { neurons := [(NeuronPresets.RegularSpiking,
          { V := -50, w := 1, spikeTrace := 0.2, synapticCurrent := 3,
            lastSpikeTime := some 5, currentTime := 9, n := 0, m := 0, h := 1,
            excitatoryInputs := [], inhibitoryInputs := [] })],
        synapses := [], spikes := [], activities := [], globalTime := 9,
        dopamine := 0.7, serotonin := 0.5, acetylcholine := 0.5,
        norepinephrine := 0.5,
        thetaPhase := 1, gammaPhase := 2, alphaPhase := 3 }
    (BiologicalNeuronProcessor.reset st).thetaPhase = 1 ∧ (1 : ℝ) ≠ 0 ∧
    ((BiologicalNeuronProcessor.reset st).neurons.get? 0).map
        (fun pn => pn.2.lastSpikeTime) = some (some 5) ∧
    (initialNeuronState NeuronPresets.RegularSpiking).lastSpikeTime = none ∧
    some (5 : ℝ) ≠ none := by
  refine ⟨rfl, by norm_num, ?_, rfl, by simp⟩
  simp [BiologicalNeuronProcessor.reset, BiologicalNeuron.reset]

/-- C3 amended: `reset()` restores every neuron's `V`, `w`, spike trace
and synaptic current to baseline, clears both per-neuron delivery
queues and the neuron clock, clears the spike/activity buffers and the
global clock, and restores the four neuromodulator levels to 0.5 — but
it leaves each neuron's last spike time and gating variables, the three
oscillator phases, and every synapse (weights, traces, topology)
unchanged. -/
theorem reset_spec (st : ProcessorState) :
    (BiologicalNeuronProcessor.reset st).neurons =
      st.neurons.map (fun pn => (pn.1,
        { pn.2 with
          V := pn.1.EL, w := 0, spikeTrace := 0, synapticCurrent := 0,
          excitatoryInputs := [], inhibitoryInputs := [], currentTime := 0 })) ∧
    (∀ i : ℕ, ((BiologicalNeuronProcessor.reset st).neurons.get? i).map
        (fun pn => pn.2.lastSpikeTime) =
      (st.neurons.get? i).map (fun pn => pn.2.lastSpikeTime)) ∧
    (BiologicalNeuronProcessor.reset st).spikes = [] ∧
    (BiologicalNeuronProcessor.reset st).activities = [] ∧
    (BiologicalNeuronProcessor.reset st).globalTime = 0 ∧
    (BiologicalNeuronProcessor.reset st).dopamine = 0.5 ∧
    (BiologicalNeuronProcessor.reset st).serotonin = 0.5 ∧
    (BiologicalNeuronProcessor.reset st).acetylcholine = 0.5 ∧
    (BiologicalNeuronProcessor.reset st).norepinephrine = 0.5 ∧
    (BiologicalNeuronProcessor.reset st).thetaPhase = st.thetaPhase ∧
    (BiologicalNeuronProcessor.reset st).gammaPhase = st.gammaPhase ∧
    (BiologicalNeuronProcessor.reset st).alphaPhase = st.alphaPhase ∧
    (BiologicalNeuronProcessor.reset st).synapses = st.synapses := by
  refine ⟨rfl, ?_, rfl, rfl, rfl, rfl, rfl, rfl, rfl, rfl, rfl, rfl, rfl⟩
  intro i
  simp only [BiologicalNeuronProcessor.reset, List.get?_eq_getElem?,
    List.getElem?_map]
  cases st.neurons[i]? <;> simp [BiologicalNeuron.reset]

/-- Pushing a run of spike records through `handleSpikePush` retains
every record: the buffer accumulated from an empty episode start is the
whole run. -/
theorem handleSpikePush_foldl (acc l : List Spike) :
    List.foldl BiologicalNeuronProcessor.handleSpikePush acc l = acc ++ l := by
  induction l generalizing acc with
  | nil => simp
  | cons s rest ih =>
    simp [BiologicalNeuronProcessor.handleSpikePush, ih]

/-- Whenever a cap is at most the current buffer length, the
spec-modelled capped push retains exactly `cap` records. -/
theorem cappedPush_length (cap : ℕ) (xs : List Spike) (s : Spike)
    (h : cap ≤ xs.length) :
    (BiologicalNeuronProcessor.cappedPush cap xs s).length = cap := by
  simp only [BiologicalNeuronProcessor.cappedPush, List.length_append,
    List.length_cons, List.length_nil]
  rw [if_pos (by omega), List.length_drop]
  simp only [List.length_append, List.length_cons, List.length_nil]
  omega

/-- C6 counterexample: with one hundred thousand spike records already
retained, handling a further spike keeps all of them — the new buffer
has 100001 records and its oldest entry is still the original first
record.  No cap-and-drop mechanism exists in the engine: `cappedPush`
(the behaviour the claim describes) would retain only the cap (10000
shown here, the figure the out-of-scope agent layer uses), so it
disagrees with the code's `handleSpikePush` at this state. -/
theorem history_cap_counterexample :
    let s0 : Spike := { neuronId := "a", timestamp := 0, strength := 1,
                        propagationPath := [] }
    let s1 : Spike := { neuronId := "b", timestamp := 1, strength := 1,
                        propagationPath := [] }
    (BiologicalNeuronProcessor.handleSpikePush (List.replicate 100000 s0) s1).length
        = 100001 ∧
    (BiologicalNeuronProcessor.handleSpikePush (List.replicate 100000 s0) s1).head?
        = some s0 ∧
    (BiologicalNeuronProcessor.cappedPush 10000
        (List.replicate 100000 s0) s1).length = 10000 := by
  refine ⟨?_, ?_, ?_⟩
  · show (List.replicate 100000 _ ++ [_]).length = 100001
    rw [List.length_append, List.length_replicate, List.length_cons,
      List.length_nil]
  · show (List.replicate 100000 _ ++ [_]).head? = _
    rw [show (100000 : ℕ) = 99999 + 1 from rfl, List.replicate_succ,
      List.cons_append, List.head?_cons]
  · exact cappedPush_length 10000 _ _ (by rw [List.length_replicate]; norm_num)

/-- C6 amended: the engine keeps no cap on its spike/activity history.
`handleSpikePush` and the activity sampler always append one record and
retain every existing one, and `processInput` instead clears both
buffers wholesale at the start of each episode, so after the `k`
spike-handling events of an episode the buffer holds exactly those `k`
records; retention is bounded only by the episode structure, never by a
cap with oldest-entry dropping. -/
theorem spike_history_uncapped (xs : List Spike) (s : Spike)
    (acts : List NeuronActivity) (a : NeuronActivity) (l : List Spike) :
    (BiologicalNeuronProcessor.handleSpikePush xs s).length = xs.length + 1 ∧
    (∀ i : ℕ, i < xs.length →
      (BiologicalNeuronProcessor.handleSpikePush xs s).get? i = xs.get? i) ∧
    (BiologicalNeuronProcessor.recordActivityPush acts a).length =
      acts.length + 1 ∧
    (∀ i : ℕ, i < acts.length →
      (BiologicalNeuronProcessor.recordActivityPush acts a).get? i =
        acts.get? i) ∧
    List.foldl BiologicalNeuronProcessor.handleSpikePush [] l = l := by
  refine ⟨?_, ?_, ?_, ?_, ?_⟩
  · simp [BiologicalNeuronProcessor.handleSpikePush]
  · intro i hi
    simp only [BiologicalNeuronProcessor.handleSpikePush,
      List.get?_eq_getElem?]
    exact List.getElem?_append_left hi
  · simp [BiologicalNeuronProcessor.recordActivityPush]
  · intro i hi
    simp only [BiologicalNeuronProcessor.recordActivityPush,
      List.get?_eq_getElem?]
    exact List.getElem?_append_left hi
  · simpa using handleSpikePush_foldl [] l

/-- Witness for C6's amended statement at concrete buffers. -/
theorem spike_history_uncapped_witness :
    let s0 : Spike := { neuronId := "a", timestamp := 0, strength := 1,
                        propagationPath := [] }
    let a0 : NeuronActivity := { neuronId := "a", timestamp := 0,
                                 potential := -70, fired := true }
    (0 : ℕ) < 2 ∧
    (BiologicalNeuronProcessor.handleSpikePush [s0, s0] s0).get? 0 =
      [s0, s0].get? 0 ∧
    (BiologicalNeuronProcessor.recordActivityPush [a0] a0).length = 2 := by
  intro s0 a0
  refine ⟨by norm_num, ?_, ?_⟩
  · exact (spike_history_uncapped [s0, s0] s0 [a0] a0 []).2.1 0 (by norm_num)
  · simpa using (spike_history_uncapped [s0, s0] s0 [a0] a0 []).2.2.1

/-- C1 counterexample: a synapse at the clamp bound 2 whose
presynaptic neuron spiked 0.5 ms ago, at baseline dopamine and
acetylcholine 0.5: the inner STDP update potentiates and clamps the
weight back to 2, but the pass then multiplies by
`1 + 0.5·0.5·0.01 = 1.0025` with no further clamp, leaving the weight
at 2.005 — strictly outside the `[0, 2]` bound the clamp enforces. -/
theorem stdp_weight_bound_counterexample :
    let syn : Synapse :=
      { preId := "a"
        postId := "b"
        weight := 2
        delay := 1
        type := SynapseType.excitatory
        plasticity := 0.01
        preTrace := 0
        postTrace := 1 }
    2 < (BiologicalNeuronProcessor.applySTDPStep NeuronPresets.RegularSpiking
        10 (some 9.5) none 0.5 0.5 syn).weight := by
  intro syn
  have hpre : BiologicalNeuronProcessor.recentSpike 10 (some 9.5) := by
    show (10 : ℝ) - 9.5 < 1
    norm_num
  have hpost : ¬ BiologicalNeuronProcessor.recentSpike 10 (none : Option ℝ) :=
    fun h => h
  simp only [BiologicalNeuronProcessor.applySTDPStep,
    BiologicalNeuron.applySTDP, decide_eq_true hpre,
    decide_eq_false hpost]
  rw [if_pos (Or.inl trivial)]
  have h2 : ¬(false = true ∧ (0 : ℝ) > 0) := fun hc => by simp at hc
  have h1 : True ∧ (1 : ℝ) > 0 := ⟨trivial, by norm_num⟩
  rw [if_neg h2, if_pos h1]
  have hA : (2 + NeuronPresets.RegularSpiking.A_plus * 1 : ℝ) = 2.01 := by
    norm_num [NeuronPresets.RegularSpiking]
  rw [hA,
    show ((2.01 : ℝ) ⊓ 2) = 2 from min_eq_right (by norm_num),
    show ((0 : ℝ) ⊔ 2) = 2 from max_eq_right (by norm_num)]
  norm_num

/-- C1 amended: the inner `applySTDP` clamp always lands the weight in
`[0, 2]`, but the plasticity pass applies its neuromodulation factor
`1 + dopamine·acetylcholine·0.01` after the clamp, so a pass can leave
the weight up to 1% above 2; with neuromodulator levels in `[0, 1]`, the
invariant the pass actually preserves is `weight ∈ [0, 2.02]`, not
`weight ∈ [0, 2]`. -/
theorem stdp_pass_weight_bound (p : NeuronParameters) (globalTime : ℝ)
    (preLast postLast : Option ℝ) (dopamine acetylcholine : ℝ) (syn : Synapse)
    (hw : syn.weight ∈ Set.Icc (0 : ℝ) 2.02)
    (hd : dopamine ∈ Set.Icc (0 : ℝ) 1)
    (ha : acetylcholine ∈ Set.Icc (0 : ℝ) 1) :
    (∀ pre post : Bool,
      (BiologicalNeuron.applySTDP p pre post syn).weight ∈ Set.Icc (0 : ℝ) 2) ∧
    (BiologicalNeuronProcessor.applySTDPStep p globalTime preLast postLast
        dopamine acetylcholine syn).weight ∈ Set.Icc (0 : ℝ) 2.02 := by
  obtain ⟨hd0, hd1⟩ := hd
  obtain ⟨ha0, ha1⟩ := ha
  have hclamp : ∀ pre post : Bool,
      (BiologicalNeuron.applySTDP p pre post syn).weight ∈ Set.Icc (0 : ℝ) 2 := by
    intro pre post
    simp only [BiologicalNeuron.applySTDP]
    exact ⟨le_max_left 0 _, max_le (by norm_num) (min_le_right _ 2)⟩
  refine ⟨hclamp, ?_⟩
  simp only [BiologicalNeuronProcessor.applySTDPStep]
  split_ifs with hif
  · obtain ⟨hc0, hc2⟩ := hclamp
      (decide (BiologicalNeuronProcessor.recentSpike globalTime preLast))
      (decide (BiologicalNeuronProcessor.recentSpike globalTime postLast))
    have hda0 : 0 ≤ dopamine * acetylcholine := mul_nonneg hd0 ha0
    have hda1 : dopamine * acetylcholine ≤ 1 := mul_le_one₀ hd1 ha0 ha1
    constructor
    · exact mul_nonneg hc0 (by nlinarith)
    · nlinarith [mul_nonneg hc0 hda0,
        mul_le_mul hc2 hda1 hda0 (by norm_num : (0 : ℝ) ≤ 2)]
  · exact hw

/-- Witness for C1's amended statement at a concrete synapse and
neuromodulator state. -/
theorem stdp_pass_weight_bound_witness :
    let syn : Synapse :=
      { preId := "a"
        postId := "b"
        weight := 1
        delay := 1
        type := SynapseType.excitatory
        plasticity := 0.01
        preTrace := 0.5
        postTrace := 0.5 }
    (1 : ℝ) ∈ Set.Icc (0 : ℝ) 2.02 ∧
    (BiologicalNeuronProcessor.applySTDPStep NeuronPresets.RegularSpiking 10
        (some 9.5) (some 3) 0.5 0.5 syn).weight ∈ Set.Icc (0 : ℝ) 2.02 := by
  intro syn
  refine ⟨Set.mem_Icc.mpr ⟨by norm_num, by norm_num⟩, ?_⟩
  exact (stdp_pass_weight_bound NeuronPresets.RegularSpiking 10 (some 9.5)
    (some 3) 0.5 0.5 syn
    (Set.mem_Icc.mpr ⟨by norm_num, by norm_num⟩)
    (Set.mem_Icc.mpr ⟨by norm_num, by norm_num⟩)
    (Set.mem_Icc.mpr ⟨by norm_num, by norm_num⟩)).2

/-- C4 counterexample: a synapse whose endpoints last spiked 50 ms ago
(and never, respectively) on the current timestep: the plasticity pass
leaves its pre-eligibility trace at exactly 0.5 — the trace neither
becomes 1 nor strictly decays, because the entire per-synapse body is
guarded by the recent-spike disjunction. -/
theorem stdp_trace_counterexample :
    let syn : Synapse :=
      { preId := "a"
        postId := "b"
        weight := 1
        delay := 1
        type := SynapseType.excitatory
        plasticity := 0.01
        preTrace := 0.5
        postTrace := 0.25 }
    (BiologicalNeuronProcessor.applySTDPStep NeuronPresets.RegularSpiking
        100 (some 50) none 0.5 0.5 syn).preTrace = 0.5 ∧
    ¬((0.5 : ℝ) = 1) ∧ ¬((0.5 : ℝ) < 0.5) := by
  intro syn
  have hpre : ¬ BiologicalNeuronProcessor.recentSpike 100 (some 50) := by
    show ¬ ((100 : ℝ) - 50 < 1)
    norm_num
  have hpost : ¬ BiologicalNeuronProcessor.recentSpike 100 (none : Option ℝ) :=
    fun h => h
  refine ⟨?_, by norm_num, by norm_num⟩
  simp only [BiologicalNeuronProcessor.applySTDPStep,
    decide_eq_false hpre, decide_eq_false hpost]
  rw [if_neg (by simp)]

/-- C4 amended: the plasticity pass touches a synapse's eligibility
traces only on timesteps where at least one endpoint spiked within the
1 ms window; on such a timestep the spiking side's trace is set to 1
and a positive non-spiking side's trace strictly decays by the fixed
factor `exp(-1/τ)` (the timestep `dt` the caller passes is ignored by
the three-parameter update); on timesteps where neither endpoint
spiked recently, the synapse — both traces included — is left entirely
unchanged. -/
theorem stdp_trace_update_spec (p : NeuronParameters) (t : ℝ)
    (preLast postLast : Option ℝ) (dopamine acetylcholine : ℝ) (syn : Synapse)
    (hp : 0 < p.tau_plus) (hm : 0 < p.tau_minus) :
    (¬ BiologicalNeuronProcessor.recentSpike t preLast →
     ¬ BiologicalNeuronProcessor.recentSpike t postLast →
      BiologicalNeuronProcessor.applySTDPStep p t preLast postLast dopamine
        acetylcholine syn = syn) ∧
    (BiologicalNeuronProcessor.recentSpike t preLast →
      (BiologicalNeuronProcessor.applySTDPStep p t preLast postLast dopamine
        acetylcholine syn).preTrace = 1) ∧
    (BiologicalNeuronProcessor.recentSpike t postLast →
      (BiologicalNeuronProcessor.applySTDPStep p t preLast postLast dopamine
        acetylcholine syn).postTrace = 1) ∧
    (¬ BiologicalNeuronProcessor.recentSpike t preLast →
     BiologicalNeuronProcessor.recentSpike t postLast → 0 < syn.preTrace →
      (BiologicalNeuronProcessor.applySTDPStep p t preLast postLast dopamine
          acetylcholine syn).preTrace =
        syn.preTrace * Real.exp (-1 / p.tau_plus) ∧
      (BiologicalNeuronProcessor.applySTDPStep p t preLast postLast dopamine
          acetylcholine syn).preTrace < syn.preTrace) ∧
    (BiologicalNeuronProcessor.recentSpike t preLast →
     ¬ BiologicalNeuronProcessor.recentSpike t postLast → 0 < syn.postTrace →
      (BiologicalNeuronProcessor.applySTDPStep p t preLast postLast dopamine
          acetylcholine syn).postTrace =
        syn.postTrace * Real.exp (-1 / p.tau_minus) ∧
      (BiologicalNeuronProcessor.applySTDPStep p t preLast postLast dopamine
          acetylcholine syn).postTrace < syn.postTrace) := by
  have hexp_plus : Real.exp (-1 / p.tau_plus) < 1 := by
    rw [Real.exp_lt_one_iff]
    exact div_neg_of_neg_of_pos (by norm_num) hp
  have hexp_minus : Real.exp (-1 / p.tau_minus) < 1 := by
    rw [Real.exp_lt_one_iff]
    exact div_neg_of_neg_of_pos (by norm_num) hm
  refine ⟨?_, ?_, ?_, ?_, ?_⟩
  · intro h1 h2
    simp only [BiologicalNeuronProcessor.applySTDPStep,
      decide_eq_false h1, decide_eq_false h2]
    rw [if_neg (by simp)]
  · intro h1
    simp only [BiologicalNeuronProcessor.applySTDPStep,
      BiologicalNeuron.applySTDP, decide_eq_true h1]
    rw [if_pos (Or.inl trivial)]
    simp
  · intro h2
    simp only [BiologicalNeuronProcessor.applySTDPStep,
      BiologicalNeuron.applySTDP, decide_eq_true h2]
    rw [if_pos (Or.inr trivial)]
    simp
  · intro h1 h2 htr
    have heq : (BiologicalNeuronProcessor.applySTDPStep p t preLast postLast
        dopamine acetylcholine syn).preTrace =
        syn.preTrace * Real.exp (-1 / p.tau_plus) := by
      simp only [BiologicalNeuronProcessor.applySTDPStep,
        BiologicalNeuron.applySTDP, decide_eq_false h1, decide_eq_true h2]
      rw [if_pos (Or.inr trivial)]
      simp
    refine ⟨heq, ?_⟩
    rw [heq]
    calc syn.preTrace * Real.exp (-1 / p.tau_plus)
        < syn.preTrace * 1 := by
          exact mul_lt_mul_of_pos_left hexp_plus htr
      _ = syn.preTrace := mul_one _
  · intro h1 h2 htr
    have heq : (BiologicalNeuronProcessor.applySTDPStep p t preLast postLast
        dopamine acetylcholine syn).postTrace =
        syn.postTrace * Real.exp (-1 / p.tau_minus) := by
      simp only [BiologicalNeuronProcessor.applySTDPStep,
        BiologicalNeuron.applySTDP, decide_eq_true h1, decide_eq_false h2]
      rw [if_pos (Or.inl trivial)]
      simp
    refine ⟨heq, ?_⟩
    rw [heq]
    calc syn.postTrace * Real.exp (-1 / p.tau_minus)
        < syn.postTrace * 1 := by
          exact mul_lt_mul_of_pos_left hexp_minus htr
      _ = syn.postTrace := mul_one _

/-- Witness for C4's amended statement: presynaptic spike 0.5 ms old,
postsynaptic spike 7 ms old, positive post trace. -/
theorem stdp_trace_update_spec_witness :
    let syn : Synapse :=
      { preId := "a"
        postId := "b"
        weight := 1
        delay := 1
        type := SynapseType.excitatory
        plasticity := 0.01
        preTrace := 0.5
        postTrace := 0.25 }
    (0 : ℝ) < NeuronPresets.RegularSpiking.tau_plus ∧
    BiologicalNeuronProcessor.recentSpike 10 (some 9.5) ∧
    ¬ BiologicalNeuronProcessor.recentSpike 10 (some 3) ∧
    (BiologicalNeuronProcessor.applySTDPStep NeuronPresets.RegularSpiking 10
        (some 9.5) (some 3) 0.5 0.5 syn).preTrace = 1 ∧
    (BiologicalNeuronProcessor.applySTDPStep NeuronPresets.RegularSpiking 10
        (some 9.5) (some 3) 0.5 0.5 syn).postTrace < 0.25 := by
  intro syn
  have hpre : BiologicalNeuronProcessor.recentSpike 10 (some 9.5) := by
    show (10 : ℝ) - 9.5 < 1
    norm_num
  have hpost : ¬ BiologicalNeuronProcessor.recentSpike 10 (some 3) := by
    show ¬ ((10 : ℝ) - 3 < 1)
    norm_num
  have h := stdp_trace_update_spec NeuronPresets.RegularSpiking 10 (some 9.5)
    (some 3) 0.5 0.5 syn
    (by norm_num [NeuronPresets.RegularSpiking])
    (by norm_num [NeuronPresets.RegularSpiking])
  refine ⟨by norm_num [NeuronPresets.RegularSpiking], hpre, hpost,
    h.2.1 hpre, ?_⟩
  exact (h.2.2.2.2 hpre hpost (by norm_num)).2

/-- C2 counterexample: a regular-spiking neuron entering the step at
`V = 21 > Vpeak = 20` with `w = 0` and no currents, `dt = 0.1`.  The
call reports the spike, but the same call then performs an Euler step
from the reset state, so on return `w = 5 + 19/300 ≠ w₀ + b = 5`: the
claim that `w` has increased by exactly `b` (and `V` equals `Vr`
exactly) after the spiking call is false here. -/
theorem adex_reset_counterexample :
    let s : NeuronState :=
      { V := 21
        w := 0
        spikeTrace := 0
        synapticCurrent := 0
        lastSpikeTime := none
        currentTime := 0
        n := 0
        m := 0
        h := 1
        excitatoryInputs := []
        inhibitoryInputs := [] }
    (BiologicalNeuron.updateAdEx NeuronPresets.RegularSpiking s 0.1 0).1 = true ∧
    ¬((BiologicalNeuron.updateAdEx NeuronPresets.RegularSpiking s 0.1 0).2.V =
        NeuronPresets.RegularSpiking.Vr ∧
      (BiologicalNeuron.updateAdEx NeuronPresets.RegularSpiking s 0.1 0).2.w =
        s.w + NeuronPresets.RegularSpiking.b) := by
  intro s
  have hspike : (21 : ℝ) > NeuronPresets.RegularSpiking.Vpeak := by
    norm_num [NeuronPresets.RegularSpiking]
  constructor
  · simp only [BiologicalNeuron.updateAdEx]
    exact decide_eq_true hspike
  · rintro ⟨-, hw⟩
    revert hw
    simp only [BiologicalNeuron.updateAdEx]
    rw [if_pos hspike, if_pos hspike]
    norm_num [NeuronPresets.RegularSpiking]

/-- C2 amended: during a call of `updateAdEx` that detects a spike,
`V` is set to the reset potential and `w` is incremented by exactly
`b` — but the same call then performs one forward-Euler step from that
reset state, so on return `spiked = true`, the spike time is recorded,
and `V` and `w` equal the reset values plus `dt` times the AdEx drift
evaluated at `(Vr, w₀ + b)`; `V` equals `Vr` exactly only when that
drift vanishes. -/
theorem adex_spike_step_spec (p : NeuronParameters) (s : NeuronState)
    (dt Iext : ℝ) (hspike : s.V > p.Vpeak) :
    (BiologicalNeuron.updateAdEx p s dt Iext).1 = true ∧
    (BiologicalNeuron.updateAdEx p s dt Iext).2.lastSpikeTime =
      some s.currentTime ∧
    (BiologicalNeuron.updateAdEx p s dt Iext).2.w =
      (s.w + p.b) + (p.a * (p.Vr - p.EL) - (s.w + p.b)) / p.tau_w * dt ∧
    (BiologicalNeuron.updateAdEx p s dt Iext).2.V =
      p.Vr + (-p.gL * (p.Vr - p.EL) +
        p.gL * p.deltaT * Real.exp ((p.Vr - p.VT) / p.deltaT) -
        (s.w + p.b) + Iext + s.synapticCurrent) / p.C * dt := by
  refine ⟨?_, ?_, ?_, ?_⟩ <;>
    simp only [BiologicalNeuron.updateAdEx]
  · exact decide_eq_true hspike
  · rw [if_pos hspike]
  · rw [if_pos hspike, if_pos hspike]
  · rw [if_pos hspike, if_pos hspike]

/-- Witness for C2's amended statement at the concrete spiking state of
the counterexample. -/
theorem adex_spike_step_spec_witness :
    let s : NeuronState :=
      { V := 21
        w := 0
        spikeTrace := 0
        synapticCurrent := 0
        lastSpikeTime := none
        currentTime := 0
        n := 0
        m := 0
        h := 1
        excitatoryInputs := []
        inhibitoryInputs := [] }
    (21 : ℝ) > NeuronPresets.RegularSpiking.Vpeak ∧
    (BiologicalNeuron.updateAdEx NeuronPresets.RegularSpiking s 0.1 0).1 = true ∧
    (BiologicalNeuron.updateAdEx NeuronPresets.RegularSpiking s 0.1 0).2.w =
      (s.w + NeuronPresets.RegularSpiking.b) +
        (NeuronPresets.RegularSpiking.a *
          (NeuronPresets.RegularSpiking.Vr - NeuronPresets.RegularSpiking.EL) -
          (s.w + NeuronPresets.RegularSpiking.b)) /
          NeuronPresets.RegularSpiking.tau_w * 0.1 := by
  intro s
  have hspike : (21 : ℝ) > NeuronPresets.RegularSpiking.Vpeak := by
    norm_num [NeuronPresets.RegularSpiking]
  have h := adex_spike_step_spec NeuronPresets.RegularSpiking s 0.1 0 hspike
  exact ⟨hspike, h.1, h.2.2.1⟩

/-- C5 counterexample: a regular-spiking neuron at its leak potential
`EL = -70` with `w = 0` and zero external and synaptic current does not
stay at the leak potential: after a single `dt = 0.1` step,
`V = -70 + 0.01·exp(-10) ≠ -70`, because the exponential spike-onset
term `gL·ΔT·exp((V-VT)/ΔT)` never vanishes. -/
theorem adex_equilibrium_counterexample :
    let s : NeuronState :=
      { V := -70
        w := 0
        spikeTrace := 0
        synapticCurrent := 0
        lastSpikeTime := none
        currentTime := 0
        n := 0
        m := 0
        h := 1
        excitatoryInputs := []
        inhibitoryInputs := [] }
    (BiologicalNeuron.updateAdEx NeuronPresets.RegularSpiking s 0.1 0).2.V ≠
      NeuronPresets.RegularSpiking.EL := by
  intro s
  have hnospike : ¬ ((-70 : ℝ) > NeuronPresets.RegularSpiking.Vpeak) := by
    norm_num [NeuronPresets.RegularSpiking]
  simp only [BiologicalNeuron.updateAdEx]
  rw [if_neg hnospike, if_neg hnospike]
  intro hEq
  have hpos : 0 < Real.exp ((-70 - NeuronPresets.RegularSpiking.VT) /
      NeuronPresets.RegularSpiking.deltaT) := Real.exp_pos _
  rw [show ((-70 : ℝ) - NeuronPresets.RegularSpiking.VT) /
      NeuronPresets.RegularSpiking.deltaT = -10 by
    norm_num [NeuronPresets.RegularSpiking]] at hpos
  revert hEq
  norm_num [NeuronPresets.RegularSpiking]

/-- C5 amended: from `V = EL`, `w = 0` and zero currents, one
(non-spiking) integrate step leaves `w` at 0 but moves `V` to
`EL + dt·gL·ΔT·exp((EL-VT)/ΔT)/C`, strictly above the leak potential
whenever `dt`, `gL`, `ΔT`, `C` are positive: the exponential
spike-onset term never vanishes, so the leak potential is not an exact
equilibrium of the integrator. -/
theorem adex_leak_drift_spec (p : NeuronParameters) (s : NeuronState) (dt : ℝ)
    (hV : s.V = p.EL) (hw : s.w = 0) (hsyn : s.synapticCurrent = 0)
    (hnospike : ¬ s.V > p.Vpeak)
    (hdt : 0 < dt) (hC : 0 < p.C) (hgL : 0 < p.gL) (hdT : 0 < p.deltaT) :
    (BiologicalNeuron.updateAdEx p s dt 0).1 = false ∧
    (BiologicalNeuron.updateAdEx p s dt 0).2.w = 0 ∧
    (BiologicalNeuron.updateAdEx p s dt 0).2.V =
      p.EL + p.gL * p.deltaT * Real.exp ((p.EL - p.VT) / p.deltaT) / p.C * dt ∧
    p.EL < (BiologicalNeuron.updateAdEx p s dt 0).2.V := by
  have hVform : (BiologicalNeuron.updateAdEx p s dt 0).2.V =
      p.EL + p.gL * p.deltaT * Real.exp ((p.EL - p.VT) / p.deltaT) / p.C * dt := by
    simp only [BiologicalNeuron.updateAdEx]
    rw [if_neg hnospike, if_neg hnospike, hV, hw, hsyn]
    ring
  refine ⟨?_, ?_, hVform, ?_⟩
  · simp only [BiologicalNeuron.updateAdEx]
    exact decide_eq_false hnospike
  · simp only [BiologicalNeuron.updateAdEx]
    rw [if_neg hnospike, if_neg hnospike, hV, hw]
    ring
  · rw [hVform]
    have hexp : 0 < Real.exp ((p.EL - p.VT) / p.deltaT) := Real.exp_pos _
    have : 0 < p.gL * p.deltaT * Real.exp ((p.EL - p.VT) / p.deltaT) / p.C * dt := by
      positivity
    linarith

/-- Witness for C5's amended statement: regular-spiking preset at its
leak potential, `dt = 0.1`. -/
theorem adex_leak_drift_spec_witness :
    let s : NeuronState :=
      { V := -70
        w := 0
        spikeTrace := 0
        synapticCurrent := 0
        lastSpikeTime := none
        currentTime := 0
        n := 0
        m := 0
        h := 1
        excitatoryInputs := []
        inhibitoryInputs := [] }
    s.V = NeuronPresets.RegularSpiking.EL ∧
    NeuronPresets.RegularSpiking.EL <
      (BiologicalNeuron.updateAdEx NeuronPresets.RegularSpiking s 0.1 0).2.V := by
  intro s
  have h := adex_leak_drift_spec NeuronPresets.RegularSpiking s 0.1
    (by norm_num [NeuronPresets.RegularSpiking]) rfl rfl
    (by norm_num [NeuronPresets.RegularSpiking])
    (by norm_num) (by norm_num [NeuronPresets.RegularSpiking])
    (by norm_num [NeuronPresets.RegularSpiking])
    (by norm_num [NeuronPresets.RegularSpiking])
  exact ⟨by norm_num [NeuronPresets.RegularSpiking], h.2.2.2⟩

end Neuromorphic
